import Mathlib

/-!
Verification development for the PDF-Invoice-Insights repository
(src/main.py and src/pdf_report_generator.py).

The Python source is shallowly embedded below:
pure helpers become Lean functions on lists/strings; the stateful parts
(the Excel file on disk, the retry loops with their sleeps and operator
error reports) become explicit state passing over a filesystem model
plus trace structures recording sleeps and reported errors.
Python strings are modelled as Lean strings or lists of characters.
-/

/-- JSON values, the result type of the Python json.loads call used in
extract_field.  Numerals are kept as their source text (no claim inspects
a parsed numeric value), objects keep their key/value pairs in source
order (Python dict semantics = last duplicate key wins, see lookupKV). -/
inductive Json where
  | null : Json
  | bool : Bool → Json
  | num : String → Json
  | str : String → Json
  | arr : List Json → Json
  | obj : List (String × Json) → Json

/-- Whitespace accepted between JSON tokens. -/
def isWsChar (c : Char) : Bool :=
  c = ' ' || c = '\n' || c = '\t' || c = '\r'

/-- Drop leading JSON whitespace. -/
def skipWs : List Char → List Char
  | [] => []
  | c :: cs => if isWsChar c then skipWs cs else c :: cs

/-- Decode a JSON string escape character (the escapes exercised by this
program; unicode escapes are rejected, no repository input uses them). -/
def escChar (c : Char) : Option Char :=
  if c = '\x22' then some '\x22'
  else if c = '\x5c' then some '\x5c'
  else if c = '/' then some '/'
  else if c = 'n' then some '\n'
  else if c = 't' then some '\t'
  else if c = 'r' then some '\r'
  else if c = 'b' then some (Char.ofNat 8)
  else if c = 'f' then some (Char.ofNat 12)
  else none

/-- Parse the body of a JSON string after the opening quote, returning the
decoded characters and the input remaining after the closing quote. -/
def parseStrBody : List Char → Option (List Char × List Char)
  | [] => none
  | c :: cs =>
    if c = '\x22' then some ([], cs)
    else if c = '\x5c' then
      match cs with
      | [] => none
      | e :: cs2 =>
        match escChar e with
        | some d =>
          match parseStrBody cs2 with
          | some (s, rest) => some (d :: s, rest)
          | none => none
        | none => none
    else
      match parseStrBody cs with
      | some (s, rest) => some (c :: s, rest)
      | none => none

/-- ASCII decimal digit test (the regex class \d of the source, and the
JSON number grammar's digits). -/
def isDigitCh (c : Char) : Bool := '0' ≤ c && c ≤ '9'

/-- Parse a JSON number token: -? digits (. digits)? ([eE] [+-]? digits)?.
The token text is kept verbatim. -/
def parseNum (cs : List Char) : Option (Json × List Char) :=
  let sign : List Char × List Char :=
    match cs with
    | c :: rest => if c = '-' then ([c], rest) else ([], cs)
    | [] => ([], cs)
  let ds := sign.2.takeWhile isDigitCh
  let r1 := sign.2.dropWhile isDigitCh
  if ds.isEmpty then none
  else
    let step2 : Option (List Char × List Char) :=
      match r1 with
      | c :: rest =>
        if c = '.' then
          let fs := rest.takeWhile isDigitCh
          if fs.isEmpty then none
          else some (c :: fs, rest.dropWhile isDigitCh)
        else some ([], r1)
      | [] => some ([], r1)
    match step2 with
    | none => none
    | some (fracPart, r2) =>
      let step3 : Option (List Char × List Char) :=
        match r2 with
        | c :: rest =>
          if c = 'e' || c = 'E' then
            let esign : List Char × List Char :=
              match rest with
              | d :: rr => if d = '+' || d = '-' then ([d], rr) else ([], rest)
              | [] => ([], rest)
            let es := esign.2.takeWhile isDigitCh
            if es.isEmpty then none
            else some (c :: esign.1 ++ es, esign.2.dropWhile isDigitCh)
          else some ([], r2)
        | [] => some ([], r2)
      match step3 with
      | none => none
      | some (expPart, r3) =>
        some (Json.num (String.mk (sign.1 ++ ds ++ fracPart ++ expPart)), r3)

/-- Recursive JSON value parser with fuel (embedding of Python json.loads).
An object or array continuation after a comma is parsed by re-entering the
parser with the opening bracket prepended, which recognises exactly the
same language while keeping the recursion structural in the fuel. -/
def parseVal : Nat → List Char → Option (Json × List Char)
  | 0, _ => none
  | Nat.succ f, cs0 =>
    match skipWs cs0 with
    | [] => none
    | c :: rest =>
      if c = '\x7b' then
        match skipWs rest with
        | [] => none
        | c2 :: rest2 =>
          if c2 = '\x7d' then some (Json.obj [], rest2)
          else if c2 = '\x22' then
            match parseStrBody rest2 with
            | none => none
            | some (k, r1) =>
              match skipWs r1 with
              | [] => none
              | c3 :: r2 =>
                if c3 = ':' then
                  match parseVal f r2 with
                  | none => none
                  | some (v, r3) =>
                    match skipWs r3 with
                    | [] => none
                    | c4 :: r4 =>
                      if c4 = '\x7d' then some (Json.obj [(String.mk k, v)], r4)
                      else if c4 = ',' then
                        match skipWs r4 with
                        | [] => none
                        | c5 :: r5 =>
                          if c5 = '\x22' then
                            match parseVal f ('\x7b' :: c5 :: r5) with
                            | some (Json.obj kvs, r6) =>
                              some (Json.obj ((String.mk k, v) :: kvs), r6)
                            | _ => none
                          else none
                      else none
                else none
          else none
      else if c = '[' then
        match skipWs rest with
        | [] => none
        | c2 :: rest2 =>
          if c2 = ']' then some (Json.arr [], rest2)
          else
            match parseVal f (c2 :: rest2) with
            | none => none
            | some (v, r1) =>
              match skipWs r1 with
              | [] => none
              | c3 :: r2 =>
                if c3 = ']' then some (Json.arr [v], r2)
                else if c3 = ',' then
                  match skipWs r2 with
                  | [] => none
                  | c4 :: r4 =>
                    if c4 = ']' then none
                    else
                      match parseVal f ('[' :: c4 :: r4) with
                      | some (Json.arr vs, r5) => some (Json.arr (v :: vs), r5)
                      | _ => none
                else none
      else if c = '\x22' then
        match parseStrBody rest with
        | some (s, r) => some (Json.str (String.mk s), r)
        | none => none
      else if c = 'n' then
        match rest with
        | u :: l1 :: l2 :: r =>
          if u = 'u' && l1 = 'l' && l2 = 'l' then some (Json.null, r) else none
        | _ => none
      else if c = 't' then
        match rest with
        | a :: b :: d :: r =>
          if a = 'r' && b = 'u' && d = 'e' then some (Json.bool true, r) else none
        | _ => none
      else if c = 'f' then
        match rest with
        | a :: b :: d :: e :: r =>
          if a = 'a' && b = 'l' && d = 's' && e = 'e' then some (Json.bool false, r)
          else none
        | _ => none
      else parseNum (c :: rest)

/-- Embedding of json.loads on a character list: parse one JSON value and
require that only whitespace remains. -/
def jsonParse (cs : List Char) : Option Json :=
  match parseVal (cs.length + 1) cs with
  | some (j, rest) => if (skipWs rest).isEmpty then some j else none
  | none => none

/-- Embedding of Python str.find for a single character: index of the first
occurrence, none when absent (-1 in the source). -/
def pyFind : List Char → Char → Option Nat
  | [], _ => none
  | c :: cs, t => if c = t then some 0 else (pyFind cs t).map (fun n => n + 1)

/-- Embedding of Python str.rfind for a single character: index of the last
occurrence, none when absent (-1 in the source). -/
def pyRFind : List Char → Char → Option Nat
  | [], _ => none
  | c :: cs, t =>
    match pyRFind cs t with
    | some i => some (i + 1)
    | none => if c = t then some 0 else none

/-- One extraction attempt's response handling (src/main.py lines 80-86):
find the first brace and the last closing brace, slice raw[start:end+1],
and hand the slice to json.loads; none is the exception path (ValueError
on missing braces, or a json.loads parse failure). -/
def attemptParseL (cs : List Char) : Option Json :=
  match pyFind cs '\x7b', pyRFind cs '\x7d' with
  | some s, some e => jsonParse ((cs.take (e + 1)).drop s)
  | _, _ => none

/-- attemptParseL on a Python string. -/
def attemptParse (raw : String) : Option Json :=
  attemptParseL raw.toList

/-- Outcome of one model call inside extract_field's try block: err is any
exception raised before the response text is available (network error,
model error), ok carries the raw response text. -/
inductive AttemptOutcome where
  | err : AttemptOutcome
  | ok : String → AttemptOutcome

/-- The value produced by attempt i of extract_field, none on the exception
path (model failure, missing braces, or malformed JSON). -/
def attemptOf (attempts : Nat → AttemptOutcome) (i : Nat) : Option Json :=
  match attempts i with
  | AttemptOutcome.err => none
  | AttemptOutcome.ok raw => attemptParse raw

/-- Observable trace of one extract_field run: the returned record, the
sequence of time.sleep durations (seconds), and the number of st.error
reports shown to the operator. -/
structure ExtractTrace where
  result : Json
  sleeps : List Nat
  errors : Nat

/-- The fallback record returned when all attempts fail
(src/main.py line 92). -/
def defaultRecord : Json :=
  Json.obj [("invoice_number", Json.str ("NA")),
            ("sender_pincode", Json.str ("NA")),
            ("receiver_pincode", Json.str ("NA")),
            ("delivery_charge", Json.str ("NA")),
            ("main_date", Json.str ("NA"))]

/-- The retry loop of extract_field (src/main.py lines 76-92), at attempt
index i with k loop iterations remaining.  Every failed attempt reports an
error and sleeps 30 seconds (the except block has no attempt guard). -/
def extractGo (attempts : Nat → AttemptOutcome) : Nat → Nat → ExtractTrace
  | _, 0 => ⟨defaultRecord, [], 0⟩
  | i, Nat.succ k =>
    match attemptOf attempts i with
    | some j => ⟨j, [], 0⟩
    | none =>
      let t := extractGo attempts (i + 1) k
      ⟨t.result, 30 :: t.sleeps, t.errors + 1⟩

/-- Embedding of extract_field (src/main.py lines 24-92): five attempts,
then the all-sentinel fallback record. -/
def extract_field (attempts : Nat → AttemptOutcome) : ExtractTrace :=
  extractGo attempts 0 5

/-- Whether a JSON object has a key (non-objects have none). -/
def Json.hasKey : Json → String → Bool
  | Json.obj kvs, k => kvs.any (fun p => p.1 == k)
  | _, _ => false

/-- Last-occurrence lookup in a JSON object's pair list: Python dicts keep
the last value bound to a duplicated key. -/
def lookupKV : List (String × Json) → String → Option Json
  | [], _ => none
  | p :: rest, k =>
    match lookupKV rest k with
    | some v => some v
    | none => if p.1 = k then some p.2 else none

/-- Embedding of the caller's fields.get(key, "NA") defaulting
(src/main.py lines 508-512). -/
def getField (j : Json) (k : String) : Json :=
  match j with
  | Json.obj kvs =>
    match lookupKV kvs k with
    | some v => v
    | none => Json.str ("NA")
  | _ => Json.str ("NA")

/-- Embedding of Python str.upper (ASCII case mapping, which covers every
invoice identifier this program manipulates). -/
def pyUpper (s : String) : String := String.mk (s.data.map Char.toUpper)

/-- One value of a pandas DataFrame cell, and equally one stored Excel
cell: text, a number (Python int and float collapsed into one exact
rational), or missing.  df.to_excel writes text as a text cell, a number
as a numeric cell and NaN as a blank cell (default na_rep), so writing is
the identity in this representation; reading is NOT the identity, see
readFrame. -/
inductive Cell where
  | str : String → Cell
  | num : ℚ → Cell
  | na : Cell
deriving DecidableEq

/-- A pandas DataFrame (and a persisted Excel artifact): column names plus
rectangular rows of cells. -/
structure Table where
  columns : List String
  rows : List (List Cell)
deriving DecidableEq

/-- The filesystem visible to the program: each path holds a stored table
or nothing (os.path.exists = isSome). -/
def FS : Type := String → Option Table

/-- The numeral value of a digit run. -/
def digitsVal (cs : List Char) : Nat :=
  cs.foldl (fun a c => 10 * a + (c.toNat - 48)) 0

/-- The default na_values of pandas read_excel / read_csv: a stored text
cell equal to any of these reads back as NaN. -/
def pandasNaValues : List String :=
  [(""), ("#N/A"), ("#N/A N/A"), ("#NA"), ("-1.#IND"), ("-1.#QNAN"),
   ("-NaN"), ("-nan"), ("1.#IND"), ("1.#QNAN"), ("<NA>"), ("N/A"), ("NA"),
   ("NULL"), ("NaN"), ("None"), ("n/a"), ("nan"), ("null")]

/-- Per-cell NA conversion applied by pd.read_excel: NA-like text and
blank cells become NaN, everything else is kept. -/
def cellNA : Cell → Cell
  | Cell.str s => if s ∈ pandasNaValues then Cell.na else Cell.str s
  | Cell.num q => Cell.num q
  | Cell.na => Cell.na

/-- Numeric-text parse used by pandas' column dtype inference: optional
sign, digits, optional fraction digits (at least one digit overall),
read as an exact decimal rational.  Exponent forms are omitted: no value
this pipeline writes uses them. -/
def pyNumParse (s : String) : Option ℚ :=
  let p1 : Bool × List Char :=
    match s.toList with
    | c :: rest =>
      if c = '-' then (true, rest)
      else if c = '+' then (false, rest)
      else (false, s.toList)
    | [] => (false, [])
  let ds := p1.2.takeWhile isDigitCh
  let r1 := p1.2.dropWhile isDigitCh
  let frac : Option (List Char) :=
    match r1 with
    | [] => some []
    | c :: r2 =>
      if c = '.' then
        if r2.dropWhile isDigitCh = [] then some (r2.takeWhile isDigitCh) else none
      else none
  match frac with
  | none => none
  | some fp =>
    if ds = [] ∧ fp = [] then none
    else
      let mag : ℚ := (digitsVal ds : ℚ) + (digitsVal fp : ℚ) / ((10 : ℚ) ^ fp.length)
      some (if p1.1 then -mag else mag)

/-- Whether an NA-converted cell is compatible with a numeric column. -/
def numericOrNA : Cell → Bool
  | Cell.na => true
  | Cell.num _ => true
  | Cell.str s => (pyNumParse s).isSome

/-- Convert one NA-converted text cell of a numeric column to its number. -/
def toNumCell : Cell → Cell
  | Cell.str s =>
    match pyNumParse s with
    | some q => Cell.num q
    | none => Cell.str s
  | c => c

/-- Whether a stored column numeric-converts on read: after NA conversion
every cell is NaN, a number, or numeric text. -/
def colConverts (cells : List Cell) : Bool :=
  (cells.map cellNA).all numericOrNA

/-- pd.read_excel on one stored column: NA-convert every cell, then, when
the whole column is numeric-compatible, convert its text cells to numbers
(the dtype inference that strips text formatting from digit-only cells). -/
def convertColumn (cells : List Cell) : List Cell :=
  let base := cells.map cellNA
  if base.all numericOrNA then base.map toNumCell else base

/-- The stored cells of column index i (tables written by this program are
rectangular; a missing cell is blank). -/
def colCells (rows : List (List Cell)) (i : Nat) : List Cell :=
  rows.map (fun r => r.getD i Cell.na)

/-- Smallest exponent k with d dividing 10 ^ k, if any below the search
bound (exists exactly when d has only the prime factors 2 and 5). -/
def decExp (d : Nat) : Option Nat :=
  (List.range 64).findIdx? (fun k => d ∣ 10 ^ k)

/-- Python str of a numeric cell value: integers as digit strings, finite
decimals as their shortest decimal form (which agrees with Python's float
repr on the short decimals this pipeline produces); the non-decimal case
is unreachable from values read out of this pipeline's artifacts and no
claim depends on it. -/
def renderNum (q : ℚ) : String :=
  let sgn : String := if q.num < 0 then ("-") else ("")
  match decExp q.den with
  | some 0 => sgn ++ Nat.repr q.num.natAbs
  | some k =>
    let n := q.num.natAbs * (10 ^ k / q.den)
    let ip := n / 10 ^ k
    let fp := n % 10 ^ k
    let fd := Nat.repr fp
    sgn ++ Nat.repr ip ++ (".") ++
      String.mk (List.replicate (k - fd.length) '0') ++ fd
  | none => sgn ++ Nat.repr q.num.natAbs ++ ("/") ++ Nat.repr q.den

/-- astype(str) on one read cell: NaN renders as 'nan', text as itself,
numbers via renderNum. -/
def astypeStr : Cell → String
  | Cell.na => ("nan")
  | Cell.str s => s
  | Cell.num q => renderNum q

/-- The 'Invoice Number' column of existing_df = pd.read_excel(filename),
after astype(str): the stored column, read (NA conversion plus dtype
inference), each value rendered as a string. -/
def readColValues (t : Table) (c : String) : List String :=
  match t.columns.findIdx? (fun s => s == c) with
  | some i => (convertColumn (colCells t.rows i)).map astypeStr
  | none => []

/-- Embedding of check_duplicate_invoice (src/main.py lines 139-151):
the existence/sentinel guard, then case-insensitive membership of the
candidate among the 'Invoice Number' values of the frame as re-read by
pandas; every other path returns False.  The except branch (read errors)
also returns False and is outside this model, which assumes the artifact
reads cleanly. -/
def check_duplicate_invoice (fs : FS) (filename : String) (invoice_number : String) : Bool :=
  match fs filename with
  | none => false
  | some t =>
    if invoice_number ≠ ("NA") ∧ invoice_number ≠ ("") then
      if t.columns.contains ("Invoice Number") then
        ((readColValues t ("Invoice Number")).map pyUpper).contains (pyUpper invoice_number)
      else false
    else false

/-- pd.read_excel on a stored table: every column is read independently
(NA conversion, then numeric inference); columns (the header row) are not
NA-converted. -/
def readFrame (t : Table) : Table :=
  ⟨t.columns,
   (List.range t.rows.length).map (fun i =>
     (List.range t.columns.length).map (fun j =>
       (convertColumn (colCells t.rows j)).getD i Cell.na))⟩

/-- Row concatenation done by pd.concat([existing_df, new_df]) when both
frames carry the identical column set (which is the case for every table
this program writes: see stdCols). -/
def concatTables (a b : Table) : Table := ⟨a.columns, a.rows ++ b.rows⟩

/-- The combined frame computed by each attempt of append_to_file
(src/main.py lines 159-163 and 180-184): pd.read_excel the existing
artifact when the path exists (NA conversion and dtype inference applied),
concatenate the new batch, else just the new batch. -/
def readTable (fs : FS) (filename : String) (new : Table) : Table :=
  match fs filename with
  | some t => concatTables (readFrame t) new
  | none => new

/-- The rows stored at a path, empty when the path is absent. -/
def rowsOf (o : Option Table) : List (List Cell) :=
  match o with
  | some t => t.rows
  | none => []

/-- The read-back image of the rows stored at a path. -/
def readRowsOf (o : Option Table) : List (List Cell) :=
  match o with
  | some t => (readFrame t).rows
  | none => []

/-- df.to_excel(path): full-file overwrite at one path. -/
def writeFile (fs : FS) (n : String) (t : Table) : FS :=
  fun m => if m = n then some t else fs m

/-- The alternate artifact path built on exhausted retries
(src/main.py lines 175-176). -/
def backupName (ts : String) : String :=
  ("invoice_backup_") ++ ts ++ (".xlsx")

/-- Outcome of the to_excel write on one attempt of append_to_file:
ok, PermissionError (file locked), or any other exception. -/
inductive WriteOutcome where
  | ok : WriteOutcome
  | locked : WriteOutcome
  | err : WriteOutcome

/-- Observable trace of one append_to_file run: the final filesystem, the
returned DataFrame, and the time.sleep durations (seconds). -/
structure MergeTrace where
  fs : FS
  result : Table
  sleeps : List Nat

/-- The retry loop of append_to_file (src/main.py lines 157-198) at attempt
index i with k iterations remaining.  A locked non-final attempt warns and
sleeps 3 seconds; a locked final attempt recomputes the combined frame and
writes it to the timestamped backup path (the backup write itself is
modelled as succeeding, the scenario the claims describe); any other
exception returns new_df with nothing written. -/
def appendGo (sched : Nat → WriteOutcome) (filename : String) (new : Table)
    (ts : String) (fs : FS) : Nat → Nat → MergeTrace
  | _, 0 => ⟨fs, new, []⟩
  | i, Nat.succ k =>
    let df := readTable fs filename new
    match sched i with
    | WriteOutcome.ok => ⟨writeFile fs filename df, df, []⟩
    | WriteOutcome.locked =>
      if k = 0 then
        let df2 := readTable fs filename new
        ⟨writeFile fs (backupName ts) df2, df2, []⟩
      else
        let t := appendGo sched filename new ts fs (i + 1) k
        ⟨t.fs, t.result, 3 :: t.sleeps⟩
    | WriteOutcome.err => ⟨fs, new, []⟩

/-- Embedding of append_to_file (src/main.py lines 153-198): up to
max_attempts = 5 read-concatenate-write cycles. -/
def append_to_file (fs : FS) (filename : String) (new : Table)
    (sched : Nat → WriteOutcome) (ts : String) : MergeTrace :=
  appendGo sched filename new ts fs 0 5

/-- One document's extracted fields as consumed by the tab1 loop
(src/main.py lines 499-512), after the per-key "NA" defaulting. -/
structure DocFields where
  fileName : String
  invoice_number : String
  delivery_charge : String
  main_date : String
  sender_pincode : String
  receiver_pincode : String

/-- The row appended for one admitted document (src/main.py line 520):
six in-memory string cells. -/
def mkRow (d : DocFields) : List Cell :=
  [Cell.str d.fileName, Cell.str d.invoice_number, Cell.str d.delivery_charge,
   Cell.str d.main_date, Cell.str d.sender_pincode, Cell.str d.receiver_pincode]

/-- The column list of every table this program writes
(src/main.py line 536). -/
def stdCols : List String :=
  [("File Name"), ("Invoice Number"), ("Delivery/Shipment Charges"),
   ("Main Date"), ("Sender Pincode"), ("Receiver Pincode")]

/-- The tab1 per-document loop (src/main.py lines 498-522): each document
is checked against the filesystem as it stands when the batch started (no
write happens inside the loop), and is either appended to data or recorded
as skipped. -/
def batchLoop (fs : FS) : List DocFields → List (List Cell) × List String
  | [] => ([], [])
  | d :: ds =>
    let rest := batchLoop fs ds
    if check_duplicate_invoice fs ("invoice.xlsx") d.invoice_number then
      (rest.1, (d.fileName ++ (" (Invoice: ") ++ d.invoice_number ++ (")")) :: rest.2)
    else
      (mkRow d :: rest.1, rest.2)

/-- The tab1 batch pipeline after extraction (src/main.py lines 498-541):
run the duplicate gate per document, then merge the admitted rows into
invoice.xlsx via append_to_file when the batch is non-empty. -/
def processBatch (fs : FS) (docs : List DocFields)
    (sched : Nat → WriteOutcome) (ts : String) : FS × List (List Cell) :=
  let data := (batchLoop fs docs).1
  if data.isEmpty then (fs, data)
  else ((append_to_file fs ("invoice.xlsx") ⟨stdCols, data⟩ sched ts).fs, data)

/-- One non-overlapping match of the regex \d+\.?\d* at the head of the
input (greedy: maximal digit run, optional dot, maximal digit run), with
the remaining input; none when the head is not a digit. -/
def matchNum (cs : List Char) : Option (List Char × List Char) :=
  let ds := cs.takeWhile isDigitCh
  let r1 := cs.dropWhile isDigitCh
  if ds.isEmpty then none
  else
    match r1 with
    | c :: r2 =>
      if c = '.' then some (ds ++ c :: r2.takeWhile isDigitCh, r2.dropWhile isDigitCh)
      else some (ds, r1)
    | [] => some (ds, r1)

/-- re.findall(r..., s) for the pattern \d+\.?\d*, with fuel: scan left to
right, emitting each non-overlapping match. -/
def findAllGo : Nat → List Char → List (List Char)
  | 0, _ => []
  | Nat.succ f, cs =>
    match cs with
    | [] => []
    | c :: cs2 =>
      match matchNum (c :: cs2) with
      | some (tok, rest) => tok :: findAllGo f rest
      | none => findAllGo f cs2

/-- All numeric tokens of a string, in order (re.findall in the source). -/
def findAllNums (cs : List Char) : List (List Char) :=
  findAllGo cs.length cs

/-- Integer and fractional digit runs of a matched numeric token
(digits, optionally a dot and more digits). -/
def splitTok (cs : List Char) : List Char × List Char :=
  let rest := cs.dropWhile isDigitCh
  let fp :=
    match rest with
    | c :: r => if c = '.' then r.takeWhile isDigitCh else []
    | [] => []
  (cs.takeWhile isDigitCh, fp)

/-- The value float(token) of a matched numeric token, as an exact
rational: the binary-float rounding of Python's float is outside this
model, which interprets the decimal literal exactly. -/
def numToRat (cs : List Char) : ℚ :=
  (digitsVal (splitTok cs).1 : ℚ) +
    (digitsVal (splitTok cs).2 : ℚ) / ((10 : ℚ) ^ (splitTok cs).2.length)

/-- Embedding of extract_numeric_value (src/main.py lines 200-212, and the
identical copy in src/pdf_report_generator.py lines 74-84).  The input
cell is none for a missing value (pd.isna) or some string; str() is the
identity on strings. -/
def extract_numeric_value : Option String → ℚ
  | none => 0
  | some s =>
    if s = ("NA") then 0
    else
      match findAllNums s.toList with
      | [] => 0
      | n :: _ => numToRat n

/-- An attempt schedule whose every model response is the bare text of an
empty JSON object. -/
def onlyEmptyObj : Nat → AttemptOutcome := fun _ => AttemptOutcome.ok ("\x7b\x7d")

/-- A stored artifact holding a single row whose invoice-number cell is
the text "NA" (what to_excel writes for a persisted sentinel row).
pd.read_excel converts this cell to NaN on every read: no read of this
artifact ever yields the string "NA". -/
def tNA : Table := ⟨[("Invoice Number")], [[Cell.str ("NA")]]⟩

/-- Filesystem with tNA persisted at the primary artifact path. -/
def fsNA : FS := fun n => if n = ("invoice.xlsx") then some tNA else none

/-- A stored artifact whose single invoice-number cell is the mixed-case
text "Na" — not in pandas' na_values, so it survives the read as the same
string. -/
def tMixed : Table := ⟨[("Invoice Number")], [[Cell.str ("Na")]]⟩

/-- Filesystem with tMixed persisted at the primary artifact path. -/
def fsMixed : FS := fun n => if n = ("invoice.xlsx") then some tMixed else none

/-- A one-row in-memory batch frame used against fsNA in the merge
counterexamples. -/
def newB : Table := ⟨[("Invoice Number")], [[Cell.str ("X7")]]⟩

/-- A one-row batch table used to exercise the merger on concrete input. -/
def demoTable : Table :=
  ⟨stdCols, [[Cell.str ("a.pdf"), Cell.str ("INV-1"), Cell.str ("10"),
    Cell.str ("01-01-2024"), Cell.str ("110001"), Cell.str ("560001")]]⟩

/-- Two documents of one batch carrying the same non-sentinel invoice
number. -/
def demoDoc1 : DocFields :=
  ⟨("a.pdf"), ("INV-1"), ("10"), ("01-01-2024"), ("110001"), ("560001")⟩

/-- Second document with the same invoice number as demoDoc1. -/
def demoDoc2 : DocFields :=
  ⟨("b.pdf"), ("INV-1"), ("20"), ("02-01-2024"), ("110002"), ("560002")⟩

lemma extractGo_allFail (attempts : Nat → AttemptOutcome) :
    ∀ k i, (∀ j, j < k → attemptOf attempts (i + j) = none) →
      extractGo attempts i k = ⟨defaultRecord, List.replicate k 30, k⟩ := by
  intro k
  induction k with
  | zero => intro i _; rfl
  | succ k ih =>
    intro i h
    have h0 : attemptOf attempts i = none := by simpa using h 0 (Nat.succ_pos k)
    have ht := ih (i + 1) (fun j hj => by
      have := h (j + 1) (Nat.succ_lt_succ hj)
      simpa [Nat.add_assoc, Nat.add_comm 1 j] using this)
    simp [extractGo, h0, ht, List.replicate_succ]

lemma extractGo_bound (attempts : Nat → AttemptOutcome) :
    ∀ k i, (extractGo attempts i k).errors ≤ k ∧
      (extractGo attempts i k).sleeps = List.replicate (extractGo attempts i k).errors 30 := by
  intro k
  induction k with
  | zero => intro i; exact ⟨Nat.le_refl 0, rfl⟩
  | succ k ih =>
    intro i
    cases h : attemptOf attempts i with
    | some j => simp [extractGo, h]
    | none =>
      have := ih (i + 1)
      constructor
      · simp [extractGo, h]
        omega
      · simp [extractGo, h, this.2, List.replicate_succ]

lemma pyFind_none (t : Char) : ∀ cs : List Char, t ∉ cs → pyFind cs t = none := by
  intro cs
  induction cs with
  | nil => intro _; rfl
  | cons c cs ih =>
    intro h
    have h1 : ¬ c = t := by intro hc; exact h (by simp [hc])
    have h2 : t ∉ cs := fun hm => h (List.mem_cons_of_mem c hm)
    simp [pyFind, h1, ih h2]

lemma pyFind_first (t : Char) :
    ∀ (cs : List Char) (s : Nat) (hs : s < cs.length),
      cs.get ⟨s, hs⟩ = t → (∀ j (hj : j < cs.length), j < s → cs.get ⟨j, hj⟩ ≠ t) →
      pyFind cs t = some s := by
  intro cs
  induction cs with
  | nil => intro s hs; exact absurd hs (by simp)
  | cons c cs ih =>
    intro s hs hget hmin
    cases s with
    | zero =>
      have hc : c = t := hget
      simp [pyFind, hc]
    | succ s2 =>
      have hct : ¬ c = t := by simpa using hmin 0 (by simp) (Nat.succ_pos s2)
      have hs2 : s2 < cs.length := by simpa using hs
      have hget2 : cs.get ⟨s2, hs2⟩ = t := by simpa using hget
      have hmin2 : ∀ j (hj : j < cs.length), j < s2 → cs.get ⟨j, hj⟩ ≠ t := by
        intro j hj hlt
        have := hmin (j + 1) (by simpa using Nat.succ_lt_succ hj) (Nat.succ_lt_succ hlt)
        simpa using this
      simp [pyFind, hct, ih s2 hs2 hget2 hmin2]

lemma pyRFind_none (t : Char) : ∀ cs : List Char, t ∉ cs → pyRFind cs t = none := by
  intro cs
  induction cs with
  | nil => intro _; rfl
  | cons c cs ih =>
    intro h
    have h1 : ¬ c = t := by intro hc; exact h (by simp [hc])
    have h2 : t ∉ cs := fun hm => h (List.mem_cons_of_mem c hm)
    simp [pyRFind, h1, ih h2]

lemma pyRFind_last (t : Char) :
    ∀ (cs : List Char) (e : Nat) (he : e < cs.length),
      cs.get ⟨e, he⟩ = t → (∀ j (hj : j < cs.length), e < j → cs.get ⟨j, hj⟩ ≠ t) →
      pyRFind cs t = some e := by
  intro cs
  induction cs with
  | nil => intro e he; exact absurd he (by simp)
  | cons c cs ih =>
    intro e he hget hmax
    cases e with
    | zero =>
      have hc : c = t := hget
      have hnot : t ∉ cs := by
        intro hm
        obtain ⟨⟨n, hn⟩, hgn⟩ := List.mem_iff_get.mp hm
        exact hmax (n + 1) (by simpa using Nat.succ_lt_succ hn) (Nat.succ_pos n)
          (by simpa using hgn)
      simp [pyRFind, pyRFind_none t cs hnot, hc]
    | succ e2 =>
      have he2 : e2 < cs.length := by simpa using he
      have hget2 : cs.get ⟨e2, he2⟩ = t := by simpa using hget
      have hmax2 : ∀ j (hj : j < cs.length), e2 < j → cs.get ⟨j, hj⟩ ≠ t := by
        intro j hj hlt
        have := hmax (j + 1) (by simpa using Nat.succ_lt_succ hj) (Nat.succ_lt_succ hlt)
        simpa using this
      simp [pyRFind, ih e2 he2 hget2 hmax2]

lemma matchNum_rest_lt :
    ∀ (cs tok rest : List Char), matchNum cs = some (tok, rest) → rest.length < cs.length := by
  intro cs tok rest h
  unfold matchNum at h
  by_cases hds : (cs.takeWhile isDigitCh).isEmpty
  · simp [hds] at h
  · have hlen : (cs.takeWhile isDigitCh).length + (cs.dropWhile isDigitCh).length = cs.length := by
      rw [← List.length_append, List.takeWhile_append_dropWhile]
    have hne : cs.takeWhile isDigitCh ≠ [] := by
      intro he
      rw [he] at hds
      exact hds rfl
    have hpos : 0 < (cs.takeWhile isDigitCh).length := List.length_pos.mpr hne
    simp only [hds, Bool.false_eq_true, if_false] at h
    cases hr : cs.dropWhile isDigitCh with
    | nil =>
      rw [hr] at h hlen
      simp only [Option.some.injEq, Prod.mk.injEq] at h
      have : rest = [] := h.2.symm
      subst this
      simp only [List.length_nil] at hlen ⊢
      omega
    | cons c r2 =>
      rw [hr] at h hlen
      by_cases hc : c = '.'
      · simp only [hc, if_true, Option.some.injEq, Prod.mk.injEq] at h
        have hsub : (r2.dropWhile isDigitCh).length ≤ r2.length :=
          (List.dropWhile_sublist isDigitCh).length_le
        have : rest = r2.dropWhile isDigitCh := h.2.symm
        subst this
        simp only [List.length_cons] at hlen
        omega
      · simp only [hc, if_false, Option.some.injEq, Prod.mk.injEq] at h
        have : rest = c :: r2 := h.2.symm
        subst this
        simp only [List.length_cons] at hlen ⊢
        omega

lemma findAllGo_congr :
    ∀ (n : Nat) (cs : List Char), cs.length ≤ n →
      ∀ f g, cs.length ≤ f → cs.length ≤ g → findAllGo f cs = findAllGo g cs := by
  intro n
  induction n with
  | zero =>
    intro cs h f g _ _
    have : cs = [] := List.length_eq_zero.mp (Nat.le_zero.mp h)
    subst this
    cases f <;> cases g <;> rfl
  | succ n ih =>
    intro cs h f g hf hg
    cases cs with
    | nil => cases f <;> cases g <;> rfl
    | cons c cs2 =>
      simp only [List.length_cons] at h hf hg
      obtain ⟨f2, rfl⟩ : ∃ f2, f = f2 + 1 := ⟨f - 1, by omega⟩
      obtain ⟨g2, rfl⟩ : ∃ g2, g = g2 + 1 := ⟨g - 1, by omega⟩
      simp only [findAllGo]
      cases hm : matchNum (c :: cs2) with
      | none =>
        show findAllGo f2 cs2 = findAllGo g2 cs2
        exact ih cs2 (by omega) f2 g2 (by omega) (by omega)
      | some pr =>
        obtain ⟨tok, rest⟩ := pr
        have hlt := matchNum_rest_lt _ _ _ hm
        simp only [List.length_cons] at hlt
        show tok :: findAllGo f2 rest = tok :: findAllGo g2 rest
        rw [ih rest (by omega) f2 g2 (by omega) (by omega)]

lemma findAllNums_cons (c : Char) (cs : List Char) :
    findAllNums (c :: cs) =
      (match matchNum (c :: cs) with
       | some (tok, rest) => tok :: findAllNums rest
       | none => findAllNums cs) := by
  unfold findAllNums
  simp only [List.length_cons, findAllGo]
  cases hm : matchNum (c :: cs) with
  | none => rfl
  | some pr =>
    obtain ⟨tok, rest⟩ := pr
    have hlt := matchNum_rest_lt _ _ _ hm
    simp only [List.length_cons] at hlt
    show tok :: findAllGo cs.length rest = tok :: findAllGo rest.length rest
    rw [findAllGo_congr rest.length rest (Nat.le_refl _) cs.length rest.length
      (by omega) (Nat.le_refl _)]

lemma findAllNums_skip :
    ∀ (pre cs : List Char), (∀ c ∈ pre, isDigitCh c = false) →
      findAllNums (pre ++ cs) = findAllNums cs := by
  intro pre
  induction pre with
  | nil => intro cs _; rfl
  | cons p pre ih =>
    intro cs h
    have hp : isDigitCh p = false := h p (List.mem_cons_self p pre)
    have h2 := ih cs (fun c hc => h c (List.mem_cons_of_mem p hc))
    rw [List.cons_append, findAllNums_cons]
    have hm : matchNum (p :: (pre ++ cs)) = none := by
      unfold matchNum
      have ht : (p :: (pre ++ cs)).takeWhile isDigitCh = [] := by
        simp [List.takeWhile_cons, hp]
      simp [ht]
    rw [hm, h2]

lemma takeWhile_append_eq (p : Char → Bool) (c0 : Char) (hc0 : p c0 = false) :
    ∀ (ds l : List Char), (∀ c ∈ ds, p c = true) →
      (ds ++ c0 :: l).takeWhile p = ds ∧ (ds ++ c0 :: l).dropWhile p = c0 :: l := by
  intro ds
  induction ds with
  | nil =>
    intro l _
    constructor <;> simp [List.takeWhile_cons, List.dropWhile_cons, hc0]
  | cons d ds ih =>
    intro l h
    have hd : p d = true := h d (List.mem_cons_self d ds)
    have := ih l (fun c hc => h c (List.mem_cons_of_mem d hc))
    constructor <;>
      simp [List.takeWhile_cons, List.dropWhile_cons, hd, this.1, this.2]

lemma matchNum_digits_comma (ds rest : List Char) (hne : ds ≠ [])
    (hdig : ∀ c ∈ ds, isDigitCh c = true) :
    matchNum (ds ++ ',' :: rest) = some (ds, ',' :: rest) := by
  have hcomma : isDigitCh ',' = false := by decide
  have hsplit := takeWhile_append_eq isDigitCh ',' hcomma ds rest hdig
  unfold matchNum
  rw [hsplit.1, hsplit.2]
  have hemp : ds.isEmpty = false := by
    cases ds with
    | nil => exact absurd rfl hne
    | cons a l => rfl
  simp [hemp]

lemma numToRat_digits (ds : List Char) (hdig : ∀ c ∈ ds, isDigitCh c = true) :
    numToRat ds = (digitsVal ds : ℚ) := by
  have h1 : splitTok ds = (ds, []) := by
    unfold splitTok
    have ht : ds.takeWhile isDigitCh = ds := List.takeWhile_eq_self_iff.mpr hdig
    have hd : ds.dropWhile isDigitCh = [] := List.dropWhile_eq_nil_iff.mpr hdig
    simp [ht, hd]
  simp [numToRat, h1, digitsVal]

lemma readFrame_rows_length (t : Table) :
    (readFrame t).rows.length = t.rows.length := by
  simp [readFrame]

lemma readTable_rows (fs : FS) (filename : String) (new : Table) :
    (readTable fs filename new).rows = readRowsOf (fs filename) ++ new.rows := by
  cases h : fs filename <;> simp [readTable, readRowsOf, concatTables, h]

lemma readRowsOf_length (fs : FS) (filename : String) :
    (readRowsOf (fs filename)).length = (rowsOf (fs filename)).length := by
  cases h : fs filename <;> simp [readRowsOf, rowsOf, readFrame_rows_length]

lemma appendGo_skip (sched : Nat → WriteOutcome) (filename : String) (new : Table)
    (ts : String) (fs : FS) :
    ∀ (n i k : Nat), (∀ j, j < n → sched (i + j) = WriteOutcome.locked) → n < k →
      appendGo sched filename new ts fs i k =
        ⟨(appendGo sched filename new ts fs (i + n) (k - n)).fs,
         (appendGo sched filename new ts fs (i + n) (k - n)).result,
         List.replicate n 3 ++ (appendGo sched filename new ts fs (i + n) (k - n)).sleeps⟩ := by
  intro n
  induction n with
  | zero => intro i k _ _; simp
  | succ n ih =>
    intro i k h hk
    obtain ⟨k2, rfl⟩ : ∃ k2, k = k2 + 1 := ⟨k - 1, by omega⟩
    have h0 : sched i = WriteOutcome.locked := by simpa using h 0 (Nat.succ_pos n)
    have hk2 : ¬ k2 = 0 := by omega
    simp only [appendGo, h0, if_neg hk2]
    have hrec := ih (i + 1) k2 (fun j hj => by
      have := h (j + 1) (Nat.succ_lt_succ hj)
      simpa [Nat.add_assoc, Nat.add_comm 1 j] using this) (by omega)
    rw [hrec]
    have e1 : i + 1 + n = i + (n + 1) := by omega
    have e2 : k2 - n = k2 + 1 - (n + 1) := by omega
    rw [e1, e2]
    simp [List.replicate_succ]

lemma appendGo_ok (sched : Nat → WriteOutcome) (filename : String) (new : Table)
    (ts : String) (fs : FS) (i k : Nat) (h : sched i = WriteOutcome.ok) (hk : 0 < k) :
    appendGo sched filename new ts fs i k =
      ⟨writeFile fs filename (readTable fs filename new), readTable fs filename new, []⟩ := by
  obtain ⟨k2, rfl⟩ : ∃ k2, k = k2 + 1 := ⟨k - 1, by omega⟩
  simp [appendGo, h]

lemma appendGo_last_locked (sched : Nat → WriteOutcome) (filename : String) (new : Table)
    (ts : String) (fs : FS) (i : Nat) (h : sched i = WriteOutcome.locked) :
    appendGo sched filename new ts fs i 1 =
      ⟨writeFile fs (backupName ts) (readTable fs filename new),
       readTable fs filename new, []⟩ := by
  simp [appendGo, h]

lemma batchLoop_fst (fs : FS) :
    ∀ docs : List DocFields, (batchLoop fs docs).1 =
      (docs.filter
        (fun d => !(check_duplicate_invoice fs ("invoice.xlsx") d.invoice_number))).map mkRow := by
  intro docs
  induction docs with
  | nil => rfl
  | cons d ds ih =>
    cases h : check_duplicate_invoice fs ("invoice.xlsx") d.invoice_number <;>
      simp [batchLoop, List.filter_cons, h, ih]

lemma lookupKV_eq_none :
    ∀ (kvs : List (String × Json)) (k : String),
      kvs.any (fun p => p.1 == k) = false → lookupKV kvs k = none := by
  intro kvs k h
  induction kvs with
  | nil => rfl
  | cons p rest ih =>
    simp only [List.any_cons, Bool.or_eq_false_iff] at h
    have hp : ¬ p.1 = k := by simpa using h.1
    simp [lookupKV, ih h.2, hp]

lemma attemptParse_prose_wrapped :
    attemptParse ("x\x7b \x22a\x22: 1 \x7dy") =
      some (Json.obj [("a", Json.num ("1"))]) := by rfl

lemma attemptParse_malformed_span :
    attemptParse ("\x7b bad json \x7d") = none := by rfl

/-- C1, counterexample: the claim says extract_field only accepts a model
response parsing to the exact five-field record shape.  On the schedule
whose first response text is the empty JSON object, the code accepts the
parse as a success on attempt one (no error is reported) and returns an
object carrying none of the five fields. -/
theorem C1_counterexample :
    (extract_field onlyEmptyObj).errors = 0 ∧
    (extract_field onlyEmptyObj).result = Json.obj [] ∧
    Json.hasKey (extract_field onlyEmptyObj).result ("invoice_number") = false := by
  exact ⟨rfl, rfl, rfl⟩

/-- C1, amended: extract_field always returns a record; when every attempt
fails it is the all-sentinel five-field record, and when an attempt's
brace span parses, the parsed JSON object is returned as-is with no shape
validation (missing keys included); the five fields are guaranteed present
only through the fallback record or through the caller's per-key "NA"
defaulting (fields.get), which maps every absent key to the sentinel. -/
theorem C1_amended_extraction (attempts : Nat → AttemptOutcome) :
    ((∀ i, i < 5 → attemptOf attempts i = none) →
        (extract_field attempts).result = defaultRecord)
  ∧ (∀ raw j, attempts 0 = AttemptOutcome.ok raw → attemptParse raw = some j →
        (extract_field attempts).result = j)
  ∧ (∀ j k, Json.hasKey j k = false → getField j k = Json.str ("NA"))
  ∧ (getField defaultRecord ("invoice_number") = Json.str ("NA") ∧
     getField defaultRecord ("sender_pincode") = Json.str ("NA") ∧
     getField defaultRecord ("receiver_pincode") = Json.str ("NA") ∧
     getField defaultRecord ("delivery_charge") = Json.str ("NA") ∧
     getField defaultRecord ("main_date") = Json.str ("NA")) := by
  refine ⟨?_, ?_, ?_, ?_⟩
  · intro h
    have hall := extractGo_allFail attempts 5 0 (fun j hj => by simpa using h j hj)
    simp [extract_field, hall]
  · intro raw j h0 hp
    have ha : attemptOf attempts 0 = some j := by simp [attemptOf, h0, hp]
    simp [extract_field, extractGo, ha]
  · intro j k h
    cases j with
    | obj kvs =>
      have hl := lookupKV_eq_none kvs k (by simpa [Json.hasKey] using h)
      simp [getField, hl]
    | null => rfl
    | bool b => rfl
    | num s => rfl
    | str s => rfl
    | arr l => rfl
  · exact ⟨rfl, rfl, rfl, rfl, rfl⟩

/-- C1, witness for the amended theorem at a concrete schedule. -/
theorem C1_amended_witness : (extract_field onlyEmptyObj).result = Json.obj [] :=
  (C1_amended_extraction onlyEmptyObj).2.1 ("\x7b\x7d") (Json.obj []) rfl rfl

/-- C2, counterexample: the claim says a sentinel candidate in any letter
case is always admitted, and rejection happens only on a case-insensitive
match with a non-sentinel stored invoice number.  Both parts fail.  With
the mixed-case value "Na" stored (which is not in pandas' na_values, so it
reads back unchanged), the lowercase sentinel candidate "na" is rejected,
because the code's sentinel test is exact-case.  And with only a sentinel
"NA" row stored (so the table stores no non-sentinel number at all), the
candidate "nan" is rejected: pd.read_excel turns the stored "NA" into NaN,
astype(str) renders it "nan", and the membership test matches it. -/
theorem C2_counterexample :
    check_duplicate_invoice fsMixed ("invoice.xlsx") ("na") = true ∧
    check_duplicate_invoice fsNA ("invoice.xlsx") ("nan") = true ∧
    readColValues tNA ("Invoice Number") = [("nan")] := by
  exact ⟨by decide, by decide, by decide⟩

/-- C2, amended: for an existing table, check_duplicate_invoice rejects a
candidate iff the candidate is not exactly "NA", not empty, the frame has
an 'Invoice Number' column, and the uppercased candidate equals the
uppercased string rendering of some value of that column as re-read by
pandas; for a column that does not numeric-convert, the re-read values
are the stored cells with NA-like strings converted to NaN, and every
NA-like stored string (such as "NA") renders as "nan", so stored sentinel
rows are matchable only through the ghost value "nan"; the exact-case
sentinel "NA" and the empty string are always admitted. -/
theorem C2_amended_gate (fs : FS) (filename : String) (t : Table) (inv : String)
    (hfs : fs filename = some t) :
    (check_duplicate_invoice fs filename inv = true ↔
      (inv ≠ ("NA") ∧ inv ≠ ("") ∧ t.columns.contains ("Invoice Number") = true ∧
        ((readColValues t ("Invoice Number")).map pyUpper).contains (pyUpper inv) = true))
  ∧ (∀ i, t.columns.findIdx? (fun s => s == ("Invoice Number")) = some i →
      colConverts (colCells t.rows i) = false →
      readColValues t ("Invoice Number") =
        (colCells t.rows i).map (fun c => astypeStr (cellNA c)))
  ∧ (∀ s, s ∈ pandasNaValues → astypeStr (cellNA (Cell.str s)) = ("nan"))
  ∧ check_duplicate_invoice fs filename ("NA") = false
  ∧ check_duplicate_invoice fs filename ("") = false := by
  refine ⟨?_, ?_, ?_, ?_, ?_⟩
  · simp only [check_duplicate_invoice, hfs]
    by_cases h1 : inv ≠ ("NA") ∧ inv ≠ ("")
    · rw [if_pos h1]
      by_cases h2 : t.columns.contains ("Invoice Number") = true
      · simp [h1.1, h1.2, h2]
      · simp only [Bool.not_eq_true] at h2
        simp [h1.1, h1.2, h2]
    · rw [if_neg h1]
      constructor
      · intro hc; exact absurd hc (by simp)
      · intro hc; exact absurd ⟨hc.1, hc.2.1⟩ h1
  · intro i hi hconv
    simp only [readColValues, hi, convertColumn]
    rw [if_neg (by simpa [colConverts] using hconv)]
    simp [List.map_map, Function.comp]
  · intro s hs
    simp [cellNA, astypeStr, hs]
  · simp only [check_duplicate_invoice, hfs]
    simp
  · simp only [check_duplicate_invoice, hfs]
    simp

/-- C2, witness for the amended theorem at a concrete table. -/
theorem C2_amended_witness : check_duplicate_invoice fsMixed ("invoice.xlsx") ("NA") = false :=
  (C2_amended_gate fsMixed ("invoice.xlsx") tMixed ("x") rfl).2.2.2.1

/-- C3, counterexample: the claim says the merged artifact's rows equal
T ++ B with no row edited.  With the stored sentinel row of tNA and a
one-row batch, the merge (under an immediately successful write) stores
a NaN cell where T stored the text "NA": pd.read_excel NA-converted the
cell before the concat, so the stored result differs from T ++ B. -/
theorem C3_counterexample :
    (append_to_file fsNA ("invoice.xlsx") newB
        (fun _ => WriteOutcome.ok) ("t")).fs ("invoice.xlsx") =
      some ⟨[("Invoice Number")], [[Cell.na], [Cell.str ("X7")]]⟩
  ∧ ([[Cell.na], [Cell.str ("X7")]] : List (List Cell)) ≠ tNA.rows ++ newB.rows := by
  exact ⟨by decide, by decide⟩

/-- C3, amended: a successful merge writes to the primary artifact exactly
the re-read image of the pre-existing rows (pandas NA conversion of
NA-like text and numeric inference of wholly numeric columns applied)
followed by the batch rows unchanged — row count and order are preserved,
no row is dropped, duplicated or reordered, and nothing else is touched —
but the pre-existing rows' cells may be edited by the read round trip, so
the result need not equal T ++ B literally. -/
theorem C3_merge_roundtrip (fs : FS) (filename : String) (new : Table)
    (sched : Nat → WriteOutcome) (ts : String) (i : Nat) (hi : i < 5)
    (hok : sched i = WriteOutcome.ok)
    (hpre : ∀ j, j < i → sched j = WriteOutcome.locked) :
    (append_to_file fs filename new sched ts).fs filename = some (readTable fs filename new)
  ∧ (readTable fs filename new).rows = readRowsOf (fs filename) ++ new.rows
  ∧ (readTable fs filename new).rows.length
      = (rowsOf (fs filename)).length + new.rows.length
  ∧ (append_to_file fs filename new sched ts).result = readTable fs filename new
  ∧ (∀ m, m ≠ filename → (append_to_file fs filename new sched ts).fs m = fs m) := by
  have hskip := appendGo_skip sched filename new ts fs i 0 5
    (fun j hj => by simpa using hpre j hj) hi
  simp only [Nat.zero_add] at hskip
  have hok5 := appendGo_ok sched filename new ts fs i (5 - i) hok (by omega)
  have hlen : (readTable fs filename new).rows.length
      = (rowsOf (fs filename)).length + new.rows.length := by
    rw [readTable_rows, List.length_append, readRowsOf_length]
  unfold append_to_file
  rw [hskip, hok5]
  refine ⟨by simp [writeFile], readTable_rows fs filename new, hlen, rfl, ?_⟩
  intro m hm
  simp [writeFile, hm]

/-- C3, witness at a concrete filesystem and batch. -/
theorem C3_witness :
    (append_to_file (fun _ => none) ("invoice.xlsx") demoTable
        (fun _ => WriteOutcome.ok) ("20240101")).fs ("invoice.xlsx") =
      some (readTable (fun _ => none) ("invoice.xlsx") demoTable) :=
  (C3_merge_roundtrip (fun _ => none) ("invoice.xlsx") demoTable
    (fun _ => WriteOutcome.ok) ("20240101") 0 (by omega) rfl
    (fun j hj => absurd hj (Nat.not_lt_zero j))).1

/-- C4, counterexample: the claim says the backup artifact contains
exactly T ++ B.  Under total contention, the backup receives the combined
frame as actually computed from pd.read_excel's values: tNA's stored "NA"
text cell arrives as NaN, so the backup's rows differ from T ++ B. -/
theorem C4_counterexample :
    (append_to_file fsNA ("invoice.xlsx") newB
        (fun _ => WriteOutcome.locked) ("t")).fs (backupName ("t")) =
      some ⟨[("Invoice Number")], [[Cell.na], [Cell.str ("X7")]]⟩
  ∧ ([[Cell.na], [Cell.str ("X7")]] : List (List Cell)) ≠ tNA.rows ++ newB.rows := by
  exact ⟨by decide, by decide⟩

/-- C4, amended: when every one of the 5 attempts hits contention, the
combined frame — the re-read image of the pre-existing rows followed by
the batch rows, with row count and order preserved — is written to the
timestamp-suffixed backup artifact, the primary artifact is untouched,
the four retries are separated by 3-second pauses, and the backup path is
distinct from the program's primary path; the backup content need not
equal T ++ B literally, since the read round trip may edit cells. -/
theorem C4_contention_fallback (fs : FS) (filename : String) (new : Table)
    (sched : Nat → WriteOutcome) (ts : String)
    (hlock : ∀ i, i < 5 → sched i = WriteOutcome.locked)
    (hne : backupName ts ≠ filename) :
    (append_to_file fs filename new sched ts).fs (backupName ts) =
      some (readTable fs filename new)
  ∧ (readTable fs filename new).rows = readRowsOf (fs filename) ++ new.rows
  ∧ (readTable fs filename new).rows.length
      = (rowsOf (fs filename)).length + new.rows.length
  ∧ (append_to_file fs filename new sched ts).fs filename = fs filename
  ∧ (append_to_file fs filename new sched ts).sleeps = [3, 3, 3, 3]
  ∧ (append_to_file fs filename new sched ts).result = readTable fs filename new
  ∧ (∀ ts2 : String, backupName ts2 ≠ ("invoice.xlsx")) := by
  have hskip := appendGo_skip sched filename new ts fs 4 0 5
    (fun j hj => by simpa using hlock j (by omega)) (by omega)
  simp only [Nat.zero_add] at hskip
  have hlast := appendGo_last_locked sched filename new ts fs 4 (hlock 4 (by omega))
  rw [show (5 : Nat) - 4 = 1 from rfl] at hskip
  have hlen : (readTable fs filename new).rows.length
      = (rowsOf (fs filename)).length + new.rows.length := by
    rw [readTable_rows, List.length_append, readRowsOf_length]
  unfold append_to_file
  rw [hskip, hlast]
  have hfne : filename ≠ backupName ts := fun h => hne h.symm
  refine ⟨by simp [writeFile], readTable_rows fs filename new, hlen,
    by simp [writeFile, hfne], rfl, rfl, ?_⟩
  intro ts2 hcontra
  have hlen := congrArg String.length hcontra
  simp only [backupName, String.length_append] at hlen
  rw [show ("invoice_backup_").length = 15 from rfl,
    show (".xlsx").length = 5 from rfl,
    show ("invoice.xlsx").length = 12 from rfl] at hlen
  omega

/-- C4, witness at a concrete filesystem and batch under total contention. -/
theorem C4_witness :
    (append_to_file (fun _ => none) ("invoice.xlsx") demoTable
        (fun _ => WriteOutcome.locked) ("20240101")).fs (backupName ("20240101")) =
      some (readTable (fun _ => none) ("invoice.xlsx") demoTable) :=
  (C4_contention_fallback (fun _ => none) ("invoice.xlsx") demoTable
    (fun _ => WriteOutcome.locked) ("20240101") (fun i _ => rfl) (by decide)).1

/-- C5: extract_field makes at most 5 attempts, reports each failure and
backs off 30 seconds after it, and when all 5 attempts fail it returns the
all-sentinel record (the embedding is a total function, so no exception
escapes the extractor). -/
theorem C5_extract_retry (attempts : Nat → AttemptOutcome) :
    ((∀ i, i < 5 → attemptOf attempts i = none) →
        extract_field attempts = ⟨defaultRecord, List.replicate 5 30, 5⟩)
  ∧ (extract_field attempts).errors ≤ 5
  ∧ (extract_field attempts).sleeps
      = List.replicate (extract_field attempts).errors 30 := by
  refine ⟨?_, (extractGo_bound attempts 5 0).1, (extractGo_bound attempts 5 0).2⟩
  intro h
  have hall := extractGo_allFail attempts 5 0 (fun j hj => by simpa using h j hj)
  simpa [extract_field] using hall

/-- C5, witness at the schedule whose every attempt raises. -/
theorem C5_witness :
    extract_field (fun _ => AttemptOutcome.err) =
      ⟨defaultRecord, List.replicate 5 30, 5⟩ :=
  (C5_extract_retry (fun _ => AttemptOutcome.err)).1 (fun _ _ => rfl)

/-- C6: one attempt's response handling parses exactly the slice from the
first opening brace to the last closing brace: when either brace is absent
the attempt fails; when both exist at the first position s and last
position e, the result is json.loads applied to exactly that slice (so a
malformed slice also fails); and a failed first attempt is counted and
retried, never returned as success. -/
theorem C6_brace_span (cs : List Char) :
    ((('\x7b' ∉ cs) ∨ ('\x7d' ∉ cs)) → attemptParseL cs = none)
  ∧ (∀ (s e : Nat) (hs : s < cs.length) (he : e < cs.length),
      cs.get ⟨s, hs⟩ = '\x7b' →
      (∀ j (hj : j < cs.length), j < s → cs.get ⟨j, hj⟩ ≠ '\x7b') →
      cs.get ⟨e, he⟩ = '\x7d' →
      (∀ j (hj : j < cs.length), e < j → cs.get ⟨j, hj⟩ ≠ '\x7d') →
      attemptParseL cs = jsonParse ((cs.take (e + 1)).drop s))
  ∧ (∀ (attempts : Nat → AttemptOutcome) (raw : String),
      attempts 0 = AttemptOutcome.ok raw → attemptParse raw = none →
      1 ≤ (extract_field attempts).errors) := by
  refine ⟨?_, ?_, ?_⟩
  · intro h
    cases h with
    | inl h =>
      cases hr : pyRFind cs '\x7d' <;>
        simp [attemptParseL, pyFind_none _ cs h, hr]
    | inr h =>
      cases hf : pyFind cs '\x7b' <;>
        simp [attemptParseL, pyRFind_none _ cs h, hf]
  · intro s e hs he hgs hmin hge hmax
    unfold attemptParseL
    rw [pyFind_first '\x7b' cs s hs hgs hmin, pyRFind_last '\x7d' cs e he hge hmax]
  · intro attempts raw h0 hp
    have ha : attemptOf attempts 0 = none := by simp [attemptOf, h0, hp]
    simp [extract_field, extractGo, ha]

/-- C6, witness at the concrete response consisting of one brace pair. -/
theorem C6_witness :
    attemptParseL ['\x7b', '\x7d'] = jsonParse ['\x7b', '\x7d'] :=
  (C6_brace_span ['\x7b', '\x7d']).2.1 0 1 (by decide) (by decide) (by decide)
    (fun j hj hlt => absurd hlt (Nat.not_lt_zero j)) (by decide)
    (fun j hj hlt => by
      intro hc
      simp only [List.length_cons, List.length_nil] at hj
      omega)

/-- C7: the delivery-charge parser returns 0 on the "NA" sentinel, on the
empty string and on a missing cell, returns 123.45 on the rupee example,
and in general returns the value of the first numeric token whenever the
string contains one. -/
theorem C7_numeric_parse :
    extract_numeric_value (some ("NA")) = 0
  ∧ extract_numeric_value (some ("")) = 0
  ∧ extract_numeric_value none = 0
  ∧ extract_numeric_value (some ("₹123.45 incl. GST")) = (123.45 : ℚ)
  ∧ (∀ (s : String) (n : List Char) (ns : List (List Char)),
      s ≠ ("NA") → findAllNums s.toList = n :: ns →
      extract_numeric_value (some s) = numToRat n) := by
  refine ⟨rfl, rfl, rfl, ?_, ?_⟩
  · have h1 : findAllNums ("₹123.45 incl. GST").toList =
        [['1', '2', '3', '.', '4', '5']] := by decide
    have h2 : ("₹123.45 incl. GST") ≠ ("NA") := by decide
    have h3 : splitTok ['1', '2', '3', '.', '4', '5'] = (['1', '2', '3'], ['4', '5']) := by
      decide
    have h4 : digitsVal ['1', '2', '3'] = 123 := by decide
    have h5 : digitsVal ['4', '5'] = 45 := by decide
    simp only [extract_numeric_value, h2, if_false, h1, numToRat, h3, h4, h5]
    norm_num
  · intro s n ns hna hf
    have hf2 : findAllNums s.data = n :: ns := hf
    simp [extract_numeric_value, hna, hf2]

/-- C7, witness for the first-token clause at a concrete string. -/
theorem C7_witness : extract_numeric_value (some ("₹7")) = numToRat ['7'] :=
  C7_numeric_parse.2.2.2.2 ("₹7") ['7'] [] (by decide) (by decide)

lemma processBatch_fs (fs : FS) (docs : List DocFields)
    (sched : Nat → WriteOutcome) (ts : String) (hok : sched 0 = WriteOutcome.ok)
    (hne : (batchLoop fs docs).1 ≠ []) :
    (processBatch fs docs sched ts).1 ("invoice.xlsx") =
      some (readTable fs ("invoice.xlsx") ⟨stdCols, (batchLoop fs docs).1⟩) := by
  have hemp : (batchLoop fs docs).1.isEmpty = false := by
    cases hd : (batchLoop fs docs).1 with
    | nil => exact absurd hd hne
    | cons a l => rfl
  simp only [processBatch, hemp, Bool.false_eq_true, if_false]
  unfold append_to_file
  rw [appendGo_ok sched ("invoice.xlsx") ⟨stdCols, (batchLoop fs docs).1⟩ ts fs 0 5
    hok (by omega)]
  simp [writeFile]

/-- C8: the duplicate gate of the batch loop consults only the table
persisted when the batch started — the admitted rows are exactly the
filter of the batch by that fixed check — so two documents of one batch
sharing one not-yet-persisted invoice number are both admitted and, after
a successful merge, both their rows are in the persisted table. -/
theorem C8_batch_dedup_scope (fs : FS) (docs : List DocFields)
    (sched : Nat → WriteOutcome) (ts : String) (hok : sched 0 = WriteOutcome.ok) :
    ((batchLoop fs docs).1 =
      (docs.filter
        (fun d => !(check_duplicate_invoice fs ("invoice.xlsx") d.invoice_number))).map mkRow)
  ∧ (∀ d1 d2, d1 ∈ docs → d2 ∈ docs →
      d1.invoice_number = d2.invoice_number →
      check_duplicate_invoice fs ("invoice.xlsx") d1.invoice_number = false →
      ∃ t, (processBatch fs docs sched ts).1 ("invoice.xlsx") = some t ∧
        mkRow d1 ∈ t.rows ∧ mkRow d2 ∈ t.rows) := by
  refine ⟨batchLoop_fst fs docs, ?_⟩
  intro d1 d2 h1 h2 hinv hnd
  have hnd2 : check_duplicate_invoice fs ("invoice.xlsx") d2.invoice_number = false := by
    rw [← hinv]
    exact hnd
  have hchar := batchLoop_fst fs docs
  have hm1 : mkRow d1 ∈ (batchLoop fs docs).1 := by
    rw [hchar]
    exact List.mem_map_of_mem mkRow (List.mem_filter.mpr ⟨h1, by simp [hnd]⟩)
  have hm2 : mkRow d2 ∈ (batchLoop fs docs).1 := by
    rw [hchar]
    exact List.mem_map_of_mem mkRow (List.mem_filter.mpr ⟨h2, by simp [hnd2]⟩)
  have hne : (batchLoop fs docs).1 ≠ [] := by
    intro he
    rw [he] at hm1
    exact absurd hm1 (List.not_mem_nil _)
  refine ⟨readTable fs ("invoice.xlsx") ⟨stdCols, (batchLoop fs docs).1⟩,
    processBatch_fs fs docs sched ts hok hne, ?_, ?_⟩
  · rw [readTable_rows]
    exact List.mem_append.mpr (Or.inr hm1)
  · rw [readTable_rows]
    exact List.mem_append.mpr (Or.inr hm2)

/-- C8, witness: a concrete cold-start batch whose two documents share the
invoice number INV-1; both rows land in the persisted table. -/
theorem C8_witness :
    ∃ t, (processBatch (fun _ => none) [demoDoc1, demoDoc2]
        (fun _ => WriteOutcome.ok) ("t")).1 ("invoice.xlsx") = some t ∧
      mkRow demoDoc1 ∈ t.rows ∧ mkRow demoDoc2 ∈ t.rows :=
  (C8_batch_dedup_scope (fun _ => none) [demoDoc1, demoDoc2]
    (fun _ => WriteOutcome.ok) ("t") rfl).2 demoDoc1 demoDoc2
    (by simp) (by simp) rfl (by decide)

/-- C9: on an amount written with comma digit-grouping, the parser matches
only the digit run before the first comma (the regex token cannot cross a
comma), so the returned value is that leading run's value. -/
theorem C9_comma_grouping (pre ds rest : List Char)
    (hpre : ∀ c ∈ pre, isDigitCh c = false)
    (hne : ds ≠ [])
    (hdig : ∀ c ∈ ds, isDigitCh c = true) :
    extract_numeric_value (some (String.mk (pre ++ ds ++ ',' :: rest))) =
      (digitsVal ds : ℚ) := by
  have hmem : ',' ∈ pre ++ ds ++ ',' :: rest := by simp
  have hnotNA : String.mk (pre ++ ds ++ ',' :: rest) ≠ ("NA") := by
    intro h
    have h2 : pre ++ ds ++ ',' :: rest = ['N', 'A'] := congrArg String.data h
    rw [h2] at hmem
    exact absurd hmem (by decide)
  have htl : (String.mk (pre ++ ds ++ ',' :: rest)).toList = pre ++ ds ++ ',' :: rest := rfl
  have hfa : findAllNums (pre ++ ds ++ ',' :: rest) = ds :: findAllNums (',' :: rest) := by
    have hassoc : pre ++ ds ++ ',' :: rest = pre ++ (ds ++ ',' :: rest) := by
      simp [List.append_assoc]
    rw [hassoc, findAllNums_skip pre _ hpre]
    have hm := matchNum_digits_comma ds rest hne hdig
    cases hd : ds with
    | nil => exact absurd hd hne
    | cons d ds2 =>
      rw [hd] at hm
      rw [List.cons_append, findAllNums_cons, ← List.cons_append, hm]
  simp only [extract_numeric_value, hnotNA, if_false, htl, hfa]
  exact numToRat_digits ds hdig

/-- C9, witness at the rupee example with comma grouping. -/
theorem C9_witness : extract_numeric_value (some ("₹1,234.50")) = 1 := by
  have h := C9_comma_grouping ['₹'] ['1'] (("234.50").toList)
    (by decide) (by decide) (by decide)
  have he : String.mk (['₹'] ++ ['1'] ++ ',' :: (("234.50").toList)) = ("₹1,234.50") := by
    decide
  rw [he] at h
  simpa using h

/-- C10: the duplicate gate admits every candidate when the persisted file
does not exist, and likewise when the stored table lacks an
'Invoice Number' column. -/
theorem C10_gate_fail_open (fs : FS) (filename inv : String) :
    (fs filename = none → check_duplicate_invoice fs filename inv = false)
  ∧ (∀ t, fs filename = some t → t.columns.contains ("Invoice Number") = false →
      check_duplicate_invoice fs filename inv = false) := by
  constructor
  · intro h
    simp [check_duplicate_invoice, h]
  · intro t h hc
    simp only [check_duplicate_invoice, h]
    by_cases h1 : inv ≠ ("NA") ∧ inv ≠ ("")
    · rw [if_pos h1]
      simp only [hc, Bool.false_eq_true, if_false]
    · rw [if_neg h1]

/-- C10, witness on the empty filesystem. -/
theorem C10_witness :
    check_duplicate_invoice (fun _ => none) ("invoice.xlsx") ("INV-1") = false :=
  (C10_gate_fail_open (fun _ => none) ("invoice.xlsx") ("INV-1")).1 rfl
